import Mathlib

/-!
Shallow embedding of `src/script.js` (temperature heatmap visualization).

The data pipeline works on daily temperature records parsed from a CSV:
`createAggregatedData` groups records by (year, month) via `d3.rollup` and
computes per-group max/min temperatures; `createDailyData` groups the same
way and sorts each group's records chronologically; `initVisualizations`
windows the data to the most recent 10 years for the second heatmap.
The two view controllers (`createYearlyHeatmap`, `createRecentYearsHeatmap`)
hold color/legend scale domains and expose `updateMatrix` / `updateLegend`.

Temperatures and calendar fields are embedded as `Int` (the CSV values are
numerals; only their linear order matters to the program).  JavaScript's
`d3.max` / `d3.min`, which return `undefined` on an empty collection, are
embedded as `Option Int`-valued functions.  `d3.rollup`'s InternMap groups
keys in first-appearance order; `groupPairs` reproduces that.
-/

namespace TempViz

/-- A parsed calendar date (from `d3.timeParse("%Y-%m-%d")`): year, month 1–12, day. -/
structure Date where
  year : Int
  month : Int
  day : Int
deriving DecidableEq, Repr

/-- A Daily Record as produced by `parseData`: a date plus the two parsed
temperature columns. -/
structure DailyRecord where
  date : Date
  max_temperature : Int
  min_temperature : Int
deriving DecidableEq, Repr

/-- `d3.max` over a list of (defined) numbers: `none` on the empty list,
otherwise the largest element. -/
def d3max (l : List Int) : Option Int :=
  match l with
  | [] => none
  | x :: xs => some (xs.foldl max x)

/-- `d3.min` over a list of (defined) numbers: `none` on the empty list,
otherwise the smallest element. -/
def d3min (l : List Int) : Option Int :=
  match l with
  | [] => none
  | x :: xs => some (xs.foldl min x)

/-- `d3.max` with an accessor that can yield `undefined` (embedded `none`):
undefined values are skipped. -/
def d3maxO (l : List (Option Int)) : Option Int :=
  d3max (l.filterMap id)

/-- `d3.min` with an accessor that can yield `undefined` (embedded `none`):
undefined values are skipped. -/
def d3minO (l : List (Option Int)) : Option Int :=
  d3min (l.filterMap id)

/-- Grouping in first-appearance key order, as `d3.rollup`'s InternMap does:
each key appears once, paired with all elements of the list having that key,
in their original relative order. -/
def groupPairs {α κ : Type} [DecidableEq κ] (k : α → κ) : List α → List (κ × List α)
  | [] => []
  | x :: xs =>
    (k x, x :: xs.filter (fun y => k y = k x)) ::
      groupPairs k (xs.filter (fun y => ¬(k y = k x)))
termination_by l => l.length
decreasing_by
  exact Nat.lt_succ_of_le (List.length_filter_le _ _)

/-- The nested `d3.rollup(data, …, d => d.date.getFullYear(), d => d.date.getMonth() + 1)`
followed by the flattening loop common to `createAggregatedData` and
`createDailyData`: a flat list of `(year, month, group)` triples, groups in
first-appearance order of year and, within a year, of month. -/
def rollupYearMonth (data : List DailyRecord) : List (Int × Int × List DailyRecord) :=
  (groupPairs (fun d => d.date.year) data).flatMap fun yg =>
    (groupPairs (fun d => d.date.month) yg.2).map fun mg =>
      (yg.1, mg.1, mg.2)

/-- A Monthly Summary produced by `createAggregatedData`. -/
structure MonthlySummary where
  year : Int
  month : Int
  max : Option Int
  min : Option Int
deriving DecidableEq, Repr

/-- `createAggregatedData`: aggregate by year and month, computing the max of
`max_temperature` and the min of `min_temperature` of each group. -/
def createAggregatedData (data : List DailyRecord) : List MonthlySummary :=
  (rollupYearMonth data).map fun x =>
    { year := x.1
      month := x.2.1
      max := d3max (x.2.2.map (fun d => d.max_temperature))
      min := d3min (x.2.2.map (fun d => d.min_temperature)) }

/-- `d3.ascending(a, b)` on two parsed dates orders them by time value, i.e.
lexicographically on (year, month, day). -/
def dateLe (a b : Date) : Bool :=
  decide (a.year < b.year ∨ (a.year = b.year ∧
    (a.month < b.month ∨ (a.month = b.month ∧ a.day ≤ b.day))))

/-- A Monthly Day-Bucket produced by `createDailyData`. -/
structure MonthlyBucket where
  year : Int
  month : Int
  days : List DailyRecord
deriving DecidableEq, Repr

/-- `createDailyData`: group by year and month, sorting each group's records
ascending by date (`v.sort((a, b) => d3.ascending(a.date, b.date))`). -/
def createDailyData (filteredData : List DailyRecord) : List MonthlyBucket :=
  (rollupYearMonth filteredData).map fun x =>
    { year := x.1
      month := x.2.1
      days := x.2.2.mergeSort (fun a b => dateLe a.date b.date) }

/-- The records of `data` falling in a given (year, month) group. -/
def monthGroup (data : List DailyRecord) (y m : Int) : List DailyRecord :=
  data.filter (fun d => d.date.year = y ∧ d.date.month = m)

/-- The data produced by `initVisualizations` before the heatmaps are built:
the aggregated summaries over the full set, the records filtered to the most
recent 10 years (`d.date.getFullYear() >= maxYear - 9`), and the daily
buckets over the filtered records.  When the input is empty, `d3.max`
returns `undefined` and the filter predicate's NaN comparison is false, so
the filtered set is empty. -/
structure InitResult where
  processedData : List MonthlySummary
  filteredData : List DailyRecord
  processedDailyData : List MonthlyBucket
deriving Repr

/-- The data-preparation part of `initVisualizations`. -/
def initVisualizations (data : List DailyRecord) : InitResult :=
  let processedData := createAggregatedData data
  let filteredData :=
    match d3max (data.map (fun d => d.date.year)) with
    | some maxYear => data.filter (fun d => maxYear - 9 ≤ d.date.year)
    | none => []
  let processedDailyData := createDailyData filteredData
  ⟨processedData, filteredData, processedDailyData⟩

/-- The temperature-type selector value (`"max"` / `"min"` radio buttons). -/
inductive TempType
  | max
  | min
deriving DecidableEq, Repr

/-- `getExtent` of `createYearlyHeatmap`: `d3.extent(processedData, d => d[tempType])`,
the (min, max) pair of the chosen field across all summaries. -/
def getExtent (processedData : List MonthlySummary) : TempType → Option Int × Option Int
  | .max => (d3minO (processedData.map (fun d => d.max)),
             d3maxO (processedData.map (fun d => d.max)))
  | .min => (d3minO (processedData.map (fun d => d.min)),
             d3maxO (processedData.map (fun d => d.min)))

/-- The scale state of the first view controller (`createYearlyHeatmap`):
the domain of the sequential cell color scale and the domain of the legend
scale.  Pixel ranges and interpolator are out of scope. -/
structure YearlyHeatmap where
  colorDomain : Option Int × Option Int
  legendDomain : Option Int × Option Int
deriving DecidableEq, Repr

/-- Construction of the first heatmap's scales: both color scale and legend
scale get domain `[d3.min(processedData, d => d.min), d3.max(processedData, d => d.max)]`. -/
def createYearlyHeatmap (processedData : List MonthlySummary) : YearlyHeatmap :=
  { colorDomain := (d3minO (processedData.map (fun d => d.min)),
                    d3maxO (processedData.map (fun d => d.max)))
    legendDomain := (d3minO (processedData.map (fun d => d.min)),
                     d3maxO (processedData.map (fun d => d.max))) }

/-- One cell's rendered state in the first heatmap: the cell key and the
value `d[tempType]` fed to the (fixed-domain) color scale. -/
structure YearlyCellRender where
  year : Int
  month : Int
  fill : Option Int
deriving DecidableEq, Repr

/-- `updateMatrix` of the first heatmap: re-binds cells keyed `year-month`
and sets each fill to `colorScale(d[tempType])`.  It touches no scale, so
the state is returned unchanged alongside the cell renders. -/
def yearlyUpdateMatrix (processedData : List MonthlySummary) (st : YearlyHeatmap)
    (tempType : TempType) : YearlyHeatmap × List YearlyCellRender :=
  (st, processedData.map fun d =>
    { year := d.year
      month := d.month
      fill := match tempType with | .max => d.max | .min => d.min })

/-- `updateLegend` of the first heatmap: re-domains the legend scale to
`getExtent(tempType)`. -/
def yearlyUpdateLegend (processedData : List MonthlySummary) (st : YearlyHeatmap)
    (tempType : TempType) : YearlyHeatmap :=
  { st with legendDomain := getExtent processedData tempType }

/-- An update operation the mode coordinator can invoke on the first heatmap. -/
inductive YearlyOp
  | matrix (tempType : TempType)
  | legend (tempType : TempType)

/-- Applying one operation to the first heatmap's scale state. -/
def yearlyApply (processedData : List MonthlySummary) (st : YearlyHeatmap) :
    YearlyOp → YearlyHeatmap
  | .matrix t => (yearlyUpdateMatrix processedData st t).1
  | .legend t => yearlyUpdateLegend processedData st t

/-- `globalMiniExtent` of `createRecentYearsHeatmap`:
`[d3.min(filteredData, d => d.min_temperature), d3.max(filteredData, d => d.max_temperature)]`. -/
def globalMiniExtent (filteredData : List DailyRecord) : Option Int × Option Int :=
  (d3min (filteredData.map (fun d => d.min_temperature)),
   d3max (filteredData.map (fun d => d.max_temperature)))

/-- `getGlobalTempExtent` of `createRecentYearsHeatmap`:
`d3.extent(filteredData, d => d[tempType + "_temperature"])`. -/
def getGlobalTempExtent (filteredData : List DailyRecord) : TempType → Option Int × Option Int
  | .max => (d3min (filteredData.map (fun d => d.max_temperature)),
             d3max (filteredData.map (fun d => d.max_temperature)))
  | .min => (d3min (filteredData.map (fun d => d.min_temperature)),
             d3max (filteredData.map (fun d => d.min_temperature)))

/-- The scale state of the second view controller (`createRecentYearsHeatmap`):
the shared mini-line vertical extent (fixed at construction), the color
scale domain used by the latest `updateMatrix` call, and the legend scale
domain. -/
structure RecentHeatmap where
  miniExtent : Option Int × Option Int
  colorDomain : Option Int × Option Int
  legendDomain : Option Int × Option Int
deriving DecidableEq, Repr

/-- One cell's rendered state in the second heatmap: cell key, the
aggregate value fed to the color scale, the domains of the two mini-line
scales (`xMini` = `[1, d.days.length]`, `yMini` = `globalMiniExtent`),
and the two plotted series (daily max and daily min temperatures in day
order). -/
structure CellRender where
  year : Int
  month : Int
  fill : Option Int
  xDomain : Int × Int
  yDomain : Option Int × Option Int
  lineMax : List Int
  lineMin : List Int
deriving DecidableEq, Repr

/-- `updateMatrix` of the second heatmap: rebuilds the color scale with
domain `getGlobalTempExtent(tempType)`, fills each cell background with the
color of `d3.max(d.days, day => day.max_temperature)` (resp. `d3.min` of
`min_temperature`), and draws the two mini line paths with the per-cell
`xMini` scale and the shared `yMini` scale over `globalMiniExtent`. -/
def recentUpdateMatrix (processedDailyData : List MonthlyBucket)
    (filteredData : List DailyRecord) (st : RecentHeatmap) (tempType : TempType) :
    RecentHeatmap × List CellRender :=
  let dom := getGlobalTempExtent filteredData tempType
  ({ st with colorDomain := dom },
   processedDailyData.map fun d =>
     { year := d.year
       month := d.month
       fill := match tempType with
         | .max => d3max (d.days.map (fun day => day.max_temperature))
         | .min => d3min (d.days.map (fun day => day.min_temperature))
       xDomain := (1, (d.days.length : Int))
       yDomain := st.miniExtent
       lineMax := d.days.map (fun day => day.max_temperature)
       lineMin := d.days.map (fun day => day.min_temperature) })

/-- `updateLegend` of the second heatmap: re-domains the legend scale to
`getGlobalTempExtent(tempType)`. -/
def recentUpdateLegend (filteredData : List DailyRecord) (st : RecentHeatmap)
    (tempType : TempType) : RecentHeatmap :=
  { st with legendDomain := getGlobalTempExtent filteredData tempType }

/-- Construction of the second heatmap: `globalMiniExtent` and the legend
domain are computed once from the windowed records, then `updateMatrix("max")`
runs as the initial render (it installs the initial color domain). -/
def createRecentYearsHeatmap (processedDailyData : List MonthlyBucket)
    (filteredData : List DailyRecord) : RecentHeatmap × List CellRender :=
  let st0 : RecentHeatmap :=
    { miniExtent := globalMiniExtent filteredData
      colorDomain := (none, none)
      legendDomain := (d3min (filteredData.map (fun d => d.min_temperature)),
                       d3max (filteredData.map (fun d => d.max_temperature))) }
  recentUpdateMatrix processedDailyData filteredData st0 .max

/-- An update operation the mode coordinator can invoke on the second heatmap. -/
inductive RecentOp
  | matrix (tempType : TempType)
  | legend (tempType : TempType)

/-- Applying one operation to the second heatmap's scale state. -/
def recentApply (processedDailyData : List MonthlyBucket)
    (filteredData : List DailyRecord) (st : RecentHeatmap) : RecentOp → RecentHeatmap
  | .matrix t => (recentUpdateMatrix processedDailyData filteredData st t).1
  | .legend t => recentUpdateLegend filteredData st t

/-- The day index the second heatmap's hover handler computes:
`Math.floor((mx / xScale.bandwidth()) * d.days.length)`.  Pixel offsets are
embedded as rationals; the band scale's bandwidth is positive. -/
def hoverDayIndex (days : List DailyRecord) (mx bandwidth : ℚ) : Int :=
  Int.floor (mx / bandwidth * (days.length : ℚ))

/-- The tooltip content the hover handler shows: `d.days[dayIndex]` is
`undefined` outside the array bounds, and the `if (dayData)` guard then
suppresses the update. -/
def hoverTooltip (days : List DailyRecord) (mx bandwidth : ℚ) : Option (Date × Int × Int) :=
  let dayIndex := hoverDayIndex days mx bandwidth
  if 0 ≤ dayIndex then
    (days[dayIndex.toNat]?).map
      (fun dayData => (dayData.date, dayData.max_temperature, dayData.min_temperature))
  else none

/-- The record rows of the spec's scenario
`[("2020-01-15",10,2),("2020-01-20",15,-1),("2020-02-01",5,-5)]`. -/
def sampleRecords : List DailyRecord :=
  [⟨⟨2020, 1, 15⟩, 10, 2⟩, ⟨⟨2020, 1, 20⟩, 15, -1⟩, ⟨⟨2020, 2, 1⟩, 5, -5⟩]

/-- A dataset spanning only the year 2015, for the windowing scenario. -/
def sample2015 : List DailyRecord :=
  [⟨⟨2015, 3, 1⟩, 20, 10⟩, ⟨⟨2015, 7, 4⟩, 30, 18⟩]

/-- The (2020, 1) day-bucket that `createDailyData` produces from
`sampleRecords`. -/
def sampleBucket : MonthlyBucket :=
  ⟨2020, 1, [⟨⟨2020, 1, 15⟩, 10, 2⟩, ⟨⟨2020, 1, 20⟩, 15, -1⟩]⟩


instance : Std.Antisymm (fun (a b : Int) => a ≤ b) :=
  ⟨fun h h' => le_antisymm h h'⟩

theorem d3max_eq_max? (l : List Int) : d3max l = l.max? := by
  cases l <;> rfl

theorem d3min_eq_min? (l : List Int) : d3min l = l.min? := by
  cases l <;> rfl

theorem d3max_eq_some_iff {l : List Int} {a : Int} :
    d3max l = some a ↔ a ∈ l ∧ ∀ b ∈ l, b ≤ a := by
  rw [d3max_eq_max?]
  exact List.max?_eq_some_iff (fun _ => le_refl _) max_choice (fun _ _ _ => max_le_iff)

theorem d3min_eq_some_iff {l : List Int} {a : Int} :
    d3min l = some a ↔ a ∈ l ∧ ∀ b ∈ l, a ≤ b := by
  rw [d3min_eq_min?]
  exact List.min?_eq_some_iff (fun _ => le_refl _) min_choice (fun _ _ _ => le_min_iff)

theorem d3max_eq_none_iff {l : List Int} : d3max l = none ↔ l = [] := by
  rw [d3max_eq_max?]; exact List.max?_eq_none_iff

theorem d3min_eq_none_iff {l : List Int} : d3min l = none ↔ l = [] := by
  rw [d3min_eq_min?]; exact List.min?_eq_none_iff

theorem d3max_perm {l l' : List Int} (h : l.Perm l') : d3max l = d3max l' := by
  cases hm : d3max l with
  | none =>
    rw [d3max_eq_none_iff] at hm
    subst hm
    rw [eq_comm, d3max_eq_none_iff]
    exact h.symm.eq_nil
  | some a =>
    rw [d3max_eq_some_iff] at hm
    rw [eq_comm, d3max_eq_some_iff]
    exact ⟨h.mem_iff.mp hm.1, fun b hb => hm.2 b (h.mem_iff.mpr hb)⟩

theorem d3min_perm {l l' : List Int} (h : l.Perm l') : d3min l = d3min l' := by
  cases hm : d3min l with
  | none =>
    rw [d3min_eq_none_iff] at hm
    subst hm
    rw [eq_comm, d3min_eq_none_iff]
    exact h.symm.eq_nil
  | some a =>
    rw [d3min_eq_some_iff] at hm
    rw [eq_comm, d3min_eq_some_iff]
    exact ⟨h.mem_iff.mp hm.1, fun b hb => hm.2 b (h.mem_iff.mpr hb)⟩

theorem groupPairs_key_exists {α κ : Type} [DecidableEq κ] {k : α → κ} :
    ∀ {l : List α} {c : κ} {g : List α}, (c, g) ∈ groupPairs k l → ∃ y ∈ l, k y = c := by
  intro l
  induction l using groupPairs.induct (k := k) with
  | case1 => intro c g h; simp [groupPairs] at h
  | case2 x xs ih =>
    intro c g h
    rw [groupPairs] at h
    rcases List.mem_cons.mp h with h | h
    · have hc : c = k x := (Prod.mk.injEq .. ▸ h.symm).1.symm
      exact ⟨x, List.mem_cons_self x xs, hc.symm⟩
    · obtain ⟨y, hy, hky⟩ := ih h
      exact ⟨y, List.mem_cons_of_mem x (List.mem_of_mem_filter hy), hky⟩

theorem groupPairs_snd_eq {α κ : Type} [DecidableEq κ] {k : α → κ} :
    ∀ {l : List α} {c : κ} {g : List α}, (c, g) ∈ groupPairs k l →
      g = l.filter (fun y => k y = c) := by
  intro l
  induction l using groupPairs.induct (k := k) with
  | case1 => intro c g h; simp [groupPairs] at h
  | case2 x xs ih =>
    intro c g h
    rw [groupPairs] at h
    rcases List.mem_cons.mp h with h | h
    · obtain ⟨hc, hg⟩ := Prod.mk.injEq .. ▸ h.symm
      subst hc
      rw [← hg, List.filter_cons_of_pos (by simp)]
    · have hne : ¬(c = k x) := by
        obtain ⟨y, hy, hky⟩ := groupPairs_key_exists h
        have := List.of_mem_filter hy
        simp at this
        exact fun hcx => this (hky.symm ▸ hcx ▸ rfl)
      have hg := ih h
      rw [hg, List.filter_filter, List.filter_cons_of_neg (by simp; exact fun hx => hne hx.symm)]
      apply List.filter_congr
      intro y _
      by_cases hyc : k y = c
      · have hnx : ¬(k y = k x) := fun h' => hne (hyc ▸ h')
        simp [hyc, hnx, hne]
      · simp [hyc]

theorem groupPairs_keys_nodup {α κ : Type} [DecidableEq κ] {k : α → κ} :
    ∀ (l : List α), ((groupPairs k l).map Prod.fst).Nodup := by
  intro l
  induction l using groupPairs.induct (k := k) with
  | case1 => simp [groupPairs]
  | case2 x xs ih =>
    rw [groupPairs]
    simp only [List.map_cons, List.nodup_cons]
    constructor
    · intro hmem
      obtain ⟨⟨c, g⟩, hcg, hfst⟩ := List.mem_map.mp hmem
      obtain ⟨y, hy, hky⟩ := groupPairs_key_exists hcg
      have := List.of_mem_filter hy
      simp at this
      exact this (hky.trans hfst)
    · exact ih

theorem groupPairs_mem_of_key {α κ : Type} [DecidableEq κ] {k : α → κ} :
    ∀ {l : List α} {y : α}, y ∈ l → ∃ g, (k y, g) ∈ groupPairs k l := by
  intro l
  induction l using groupPairs.induct (k := k) with
  | case1 => intro y h; simp at h
  | case2 x xs ih =>
    intro y hy
    by_cases hk : k y = k x
    · exact ⟨x :: xs.filter (fun z => k z = k x), by rw [groupPairs, hk]; exact List.mem_cons_self _ _⟩
    · have hyx : y ≠ x := fun h => hk (h ▸ rfl)
      have hyxs : y ∈ xs := (List.mem_cons.mp hy).resolve_left hyx
      have hyf : y ∈ xs.filter (fun z => ¬(k z = k x)) := by
        apply List.mem_filter.mpr
        exact ⟨hyxs, by simpa using hk⟩
      obtain ⟨g, hg⟩ := ih hyf
      exact ⟨g, by rw [groupPairs]; exact List.mem_cons_of_mem _ hg⟩


theorem groupPairs_snd_ne_nil {α κ : Type} [DecidableEq κ] {k : α → κ}
    {l : List α} {c : κ} {g : List α} (h : (c, g) ∈ groupPairs k l) : g ≠ [] := by
  obtain ⟨y, hy, hky⟩ := groupPairs_key_exists h
  rw [groupPairs_snd_eq h]
  intro hnil
  have : y ∈ l.filter (fun z => k z = c) := List.mem_filter.mpr ⟨hy, by simpa using hky⟩
  rw [hnil] at this
  simp at this

theorem monthGroup_eq_filter_filter (data : List DailyRecord) (y m : Int) :
    (data.filter (fun d => d.date.year = y)).filter (fun d => d.date.month = m)
      = monthGroup data y m := by
  rw [List.filter_filter, monthGroup]
  apply List.filter_congr
  intro d _
  by_cases h1 : d.date.year = y <;> by_cases h2 : d.date.month = m <;> simp [h1, h2]

theorem mem_rollupYearMonth {data : List DailyRecord} {y m : Int} {g : List DailyRecord} :
    (y, m, g) ∈ rollupYearMonth data ↔ monthGroup data y m ≠ [] ∧ g = monthGroup data y m := by
  rw [rollupYearMonth]
  constructor
  · intro h
    obtain ⟨yg, hyg, hmem⟩ := List.mem_flatMap.mp h
    obtain ⟨mg, hmg, heq⟩ := List.mem_map.mp hmem
    simp only [Prod.mk.injEq] at heq
    obtain ⟨h1, h2, h3⟩ := heq
    have hyg2 := groupPairs_snd_eq hyg
    have hmg2 := groupPairs_snd_eq hmg
    rw [hyg2, h1, h2, monthGroup_eq_filter_filter] at hmg2
    have hne := groupPairs_snd_ne_nil hmg
    rw [hmg2] at hne
    exact ⟨hne, h3 ▸ hmg2⟩
  · rintro ⟨hne, rfl⟩
    obtain ⟨d, hd⟩ := List.exists_mem_of_ne_nil _ hne
    have hd' := List.mem_filter.mp hd
    have hdd : d ∈ data := hd'.1
    have hkey : d.date.year = y ∧ d.date.month = m := by simpa using hd'.2
    obtain ⟨yG, hyG⟩ := groupPairs_mem_of_key (k := fun d => d.date.year) hdd
    rw [hkey.1] at hyG
    have hyG2 := groupPairs_snd_eq hyG
    have hdyG : d ∈ yG := by
      rw [hyG2]
      exact List.mem_filter.mpr ⟨hdd, by simpa using hkey.1⟩
    obtain ⟨mG, hmG⟩ := groupPairs_mem_of_key (k := fun d => d.date.month) hdyG
    rw [hkey.2] at hmG
    have hmG2 := groupPairs_snd_eq hmG
    rw [hyG2, monthGroup_eq_filter_filter] at hmG2
    apply List.mem_flatMap.mpr
    refine ⟨(y, yG), hyG, List.mem_map.mpr ⟨(m, mG), hmG, ?_⟩⟩
    simp [hmG2]

theorem nodup_flatMap_keys (L : List (Int × List DailyRecord))
    (hL : (L.map Prod.fst).Nodup) :
    (L.flatMap (fun yg => (groupPairs (fun d => d.date.month) yg.2).map
      (fun mg => (yg.1, mg.1)))).Nodup := by
  induction L with
  | nil => simp
  | cons yg L ih =>
    rw [List.flatMap_cons, List.nodup_append]
    rw [List.map_cons, List.nodup_cons] at hL
    refine ⟨?_, ih hL.2, ?_⟩
    · have : ((groupPairs (fun d => d.date.month) yg.2).map (fun mg => (yg.1, mg.1)))
          = (((groupPairs (fun d => d.date.month) yg.2).map Prod.fst).map
              (fun c => (yg.1, c))) := by
        rw [List.map_map]
        rfl
      rw [this]
      exact (groupPairs_keys_nodup yg.2).map
        (fun a b hab => by simpa using (Prod.mk.injEq .. ▸ hab).2) 
    · intro p hp hp'
      obtain ⟨mg, _, hpe⟩ := List.mem_map.mp hp
      obtain ⟨yg', hyg', hmem'⟩ := List.mem_flatMap.mp hp'
      obtain ⟨mg', _, hpe'⟩ := List.mem_map.mp hmem'
      apply hL.1
      have h1 : p.1 = yg.1 := by rw [← hpe]
      have h2 : p.1 = yg'.1 := by rw [← hpe']
      have : yg.1 = yg'.1 := h1 ▸ h2
      rw [this]
      exact List.mem_map.mpr ⟨yg', hyg', rfl⟩

theorem rollupYearMonth_keys_nodup (data : List DailyRecord) :
    ((rollupYearMonth data).map (fun x => (x.1, x.2.1))).Nodup := by
  rw [rollupYearMonth, List.map_flatMap]
  have : (fun yg : Int × List DailyRecord =>
      ((groupPairs (fun d => d.date.month) yg.2).map (fun mg => (yg.1, mg.1, mg.2))).map
        (fun x => (x.1, x.2.1)))
      = fun yg => (groupPairs (fun d => d.date.month) yg.2).map (fun mg => (yg.1, mg.1)) := by
    funext yg
    rw [List.map_map]
    rfl
  rw [this]
  exact nodup_flatMap_keys _ (groupPairs_keys_nodup data)

theorem mem_createAggregatedData {data : List DailyRecord} {s : MonthlySummary} :
    s ∈ createAggregatedData data ↔
      ∃ y m, monthGroup data y m ≠ [] ∧
        s = { year := y, month := m,
              max := d3max ((monthGroup data y m).map (fun d => d.max_temperature)),
              min := d3min ((monthGroup data y m).map (fun d => d.min_temperature)) } := by
  rw [createAggregatedData]
  constructor
  · intro h
    obtain ⟨x, hx, hxe⟩ := List.mem_map.mp h
    obtain ⟨y, m, g⟩ := x
    obtain ⟨hne, hg⟩ := mem_rollupYearMonth.mp hx
    exact ⟨y, m, hne, by rw [← hxe, hg]⟩
  · rintro ⟨y, m, hne, rfl⟩
    exact List.mem_map.mpr ⟨(y, m, monthGroup data y m),
      mem_rollupYearMonth.mpr ⟨hne, rfl⟩, rfl⟩

theorem mem_createDailyData {fd : List DailyRecord} {b : MonthlyBucket} :
    b ∈ createDailyData fd ↔
      ∃ y m, monthGroup fd y m ≠ [] ∧
        b = { year := y, month := m,
              days := (monthGroup fd y m).mergeSort (fun a c => dateLe a.date c.date) } := by
  rw [createDailyData]
  constructor
  · intro h
    obtain ⟨x, hx, hxe⟩ := List.mem_map.mp h
    obtain ⟨y, m, g⟩ := x
    obtain ⟨hne, hg⟩ := mem_rollupYearMonth.mp hx
    exact ⟨y, m, hne, by rw [← hxe, hg]⟩
  · rintro ⟨y, m, hne, rfl⟩
    exact List.mem_map.mpr ⟨(y, m, monthGroup fd y m),
      mem_rollupYearMonth.mpr ⟨hne, rfl⟩, rfl⟩

theorem createAggregatedData_keys_nodup (data : List DailyRecord) :
    ((createAggregatedData data).map (fun s => (s.year, s.month))).Nodup := by
  have : (createAggregatedData data).map (fun s => (s.year, s.month))
      = (rollupYearMonth data).map (fun x => (x.1, x.2.1)) := by
    rw [createAggregatedData, List.map_map]
    rfl
  rw [this]
  exact rollupYearMonth_keys_nodup data

theorem createDailyData_keys_nodup (fd : List DailyRecord) :
    ((createDailyData fd).map (fun b => (b.year, b.month))).Nodup := by
  have : (createDailyData fd).map (fun b => (b.year, b.month))
      = (rollupYearMonth fd).map (fun x => (x.1, x.2.1)) := by
    rw [createDailyData, List.map_map]
    rfl
  rw [this]
  exact rollupYearMonth_keys_nodup fd


theorem monthGroup_ne_nil_iff {data : List DailyRecord} {y m : Int} :
    monthGroup data y m ≠ [] ↔ ∃ d ∈ data, d.date.year = y ∧ d.date.month = m := by
  constructor
  · intro h
    obtain ⟨d, hd⟩ := List.exists_mem_of_ne_nil _ h
    have hd' := List.mem_filter.mp hd
    exact ⟨d, hd'.1, by simpa using hd'.2⟩
  · rintro ⟨d, hd, h1, h2⟩ hnil
    have : d ∈ monthGroup data y m := List.mem_filter.mpr ⟨hd, by simp [h1, h2]⟩
    rw [hnil] at this
    simp at this

theorem dateLe_trans (a b c : Date) (h1 : dateLe a b = true) (h2 : dateLe b c = true) :
    dateLe a c = true := by
  simp only [dateLe, decide_eq_true_eq] at h1 h2 ⊢
  omega

theorem dateLe_total (a b : Date) : (dateLe a b || dateLe b a) = true := by
  simp only [dateLe, Bool.or_eq_true, decide_eq_true_eq]
  omega


/-- C1: for every non-empty record sequence, `createAggregatedData` produces
exactly one Monthly Summary per distinct (year, month) pair present in the
input (its keys are duplicate-free and a key occurs exactly when a record
with it does), each summary's `max` is the maximum `max_temperature` and its
`min` the minimum `min_temperature` of that group's records, and on the
scenario rows it yields {2020, 1, 15, -1} and {2020, 2, 5, -5}. -/
theorem summarize_correct (data : List DailyRecord) (hne : data ≠ []) :
    ((createAggregatedData data).map (fun s => (s.year, s.month))).Nodup
    ∧ (∀ y m, (∃ s ∈ createAggregatedData data, s.year = y ∧ s.month = m) ↔
        (∃ d ∈ data, d.date.year = y ∧ d.date.month = m))
    ∧ (∀ s ∈ createAggregatedData data,
        ∃ a b, s.max = some a ∧ s.min = some b
          ∧ a ∈ (monthGroup data s.year s.month).map (fun d => d.max_temperature)
          ∧ (∀ t ∈ (monthGroup data s.year s.month).map (fun d => d.max_temperature), t ≤ a)
          ∧ b ∈ (monthGroup data s.year s.month).map (fun d => d.min_temperature)
          ∧ (∀ t ∈ (monthGroup data s.year s.month).map (fun d => d.min_temperature), b ≤ t))
    ∧ createAggregatedData sampleRecords =
        [⟨2020, 1, some 15, some (-1)⟩, ⟨2020, 2, some 5, some (-5)⟩] := by
  refine ⟨createAggregatedData_keys_nodup data, ?_, ?_, ?_⟩
  · intro y m
    constructor
    · rintro ⟨s, hs, hy, hm⟩
      obtain ⟨y', m', hne', hse⟩ := mem_createAggregatedData.mp hs
      have hy' : y' = y := by rw [hse] at hy; exact hy
      have hm' : m' = m := by rw [hse] at hm; exact hm
      rw [hy', hm'] at hne'
      exact monthGroup_ne_nil_iff.mp hne'
    · intro h
      have hgne : monthGroup data y m ≠ [] := monthGroup_ne_nil_iff.mpr h
      exact ⟨_, mem_createAggregatedData.mpr ⟨y, m, hgne, rfl⟩, rfl, rfl⟩
  · intro s hs
    obtain ⟨y, m, hgne, hse⟩ := mem_createAggregatedData.mp hs
    have hmapne : (monthGroup data y m).map (fun d => d.max_temperature) ≠ [] := by
      simpa using hgne
    have hmapne' : (monthGroup data y m).map (fun d => d.min_temperature) ≠ [] := by
      simpa using hgne
    obtain ⟨a, ha⟩ : ∃ a, d3max ((monthGroup data y m).map (fun d => d.max_temperature))
        = some a := by
      cases hc : d3max ((monthGroup data y m).map (fun d => d.max_temperature)) with
      | none => exact absurd (d3max_eq_none_iff.mp hc) hmapne
      | some a => exact ⟨a, rfl⟩
    obtain ⟨b, hb⟩ : ∃ b, d3min ((monthGroup data y m).map (fun d => d.min_temperature))
        = some b := by
      cases hc : d3min ((monthGroup data y m).map (fun d => d.min_temperature)) with
      | none => exact absurd (d3min_eq_none_iff.mp hc) hmapne'
      | some b => exact ⟨b, rfl⟩
    obtain ⟨hamem, haub⟩ := d3max_eq_some_iff.mp ha
    obtain ⟨hbmem, hblb⟩ := d3min_eq_some_iff.mp hb
    subst hse
    exact ⟨a, b, ha, hb, hamem, haub, hbmem, hblb⟩
  · simp [createAggregatedData, rollupYearMonth, groupPairs, d3max, d3min, sampleRecords]

/-- Witness for `summarize_correct` at the spec's scenario rows. -/
theorem summarize_correct_witness :
    sampleRecords ≠ []
    ∧ createAggregatedData sampleRecords =
        [⟨2020, 1, some 15, some (-1)⟩, ⟨2020, 2, some 5, some (-5)⟩] :=
  ⟨by simp [sampleRecords], (summarize_correct sampleRecords (by simp [sampleRecords])).2.2.2⟩


/-- C2: for every record sequence, `createDailyData` produces one bucket per
non-empty (year, month) group (keys duplicate-free, a key occurs exactly
when a record with it does), and each bucket's `days` is sorted
non-decreasing by date and is a permutation of the input records of that
group (none omitted, none duplicated). -/
theorem bucketDaily_correct (data : List DailyRecord) :
    ((createDailyData data).map (fun b => (b.year, b.month))).Nodup
    ∧ (∀ y m, (∃ b ∈ createDailyData data, b.year = y ∧ b.month = m) ↔
        (∃ d ∈ data, d.date.year = y ∧ d.date.month = m))
    ∧ (∀ b ∈ createDailyData data,
        b.days.Pairwise (fun a c => dateLe a.date c.date = true)
        ∧ b.days.Perm (monthGroup data b.year b.month)) := by
  refine ⟨createDailyData_keys_nodup data, ?_, ?_⟩
  · intro y m
    constructor
    · rintro ⟨b, hb, hy, hm⟩
      obtain ⟨y', m', hne', hbe⟩ := mem_createDailyData.mp hb
      have hy' : y' = y := by rw [hbe] at hy; exact hy
      have hm' : m' = m := by rw [hbe] at hm; exact hm
      rw [hy', hm'] at hne'
      exact monthGroup_ne_nil_iff.mp hne'
    · intro h
      have hgne : monthGroup data y m ≠ [] := monthGroup_ne_nil_iff.mpr h
      exact ⟨_, mem_createDailyData.mpr ⟨y, m, hgne, rfl⟩, rfl, rfl⟩
  · intro b hb
    obtain ⟨y, m, hgne, hbe⟩ := mem_createDailyData.mp hb
    subst hbe
    constructor
    · exact List.sorted_mergeSort
        (fun a c e h1 h2 => dateLe_trans a.date c.date e.date h1 h2)
        (fun a c => dateLe_total a.date c.date)
        (monthGroup data y m)
    · exact List.mergeSort_perm (monthGroup data y m) _

/-- Witness for `bucketDaily_correct` at the scenario rows and the (2020, 1)
bucket. -/
theorem bucketDaily_correct_witness :
    ((createDailyData sampleRecords).map (fun b => (b.year, b.month))).Nodup
    ∧ sampleBucket.days.Pairwise (fun a c => dateLe a.date c.date = true)
    ∧ sampleBucket.days.Perm (monthGroup sampleRecords sampleBucket.year sampleBucket.month) := by
  have h := bucketDaily_correct sampleRecords
  have hmem : sampleBucket ∈ createDailyData sampleRecords := by
    simp [createDailyData, rollupYearMonth, groupPairs, sampleRecords, sampleBucket,
      List.mergeSort, dateLe]
  exact ⟨h.1, (h.2.2 sampleBucket hmem).1, (h.2.2 sampleBucket hmem).2⟩


/-- C3: when the input is non-empty with maximum year `yn`, the filtered set
that `initVisualizations` feeds to the recent-years view contains exactly
the records with year in [yn − 9, yn]; `createAggregatedData` is applied to
the unfiltered full set; the daily buckets come from the filtered set; and a
dataset spanning only 2015 retains exactly the single year 2015. -/
theorem windowing_correct (data : List DailyRecord) (yn : Int)
    (hmax : d3max (data.map (fun d => d.date.year)) = some yn) :
    (initVisualizations data).filteredData
      = data.filter (fun d => yn - 9 ≤ d.date.year ∧ d.date.year ≤ yn)
    ∧ (initVisualizations data).processedData = createAggregatedData data
    ∧ (initVisualizations data).processedDailyData
      = createDailyData ((initVisualizations data).filteredData)
    ∧ ((initVisualizations sample2015).filteredData.map (fun d => d.date.year)).dedup
      = [2015] := by
  refine ⟨?_, rfl, rfl, by decide⟩
  have hub := (d3max_eq_some_iff.mp hmax).2
  show (match d3max (data.map (fun d => d.date.year)) with
    | some maxYear => data.filter (fun (d : DailyRecord) => maxYear - 9 ≤ d.date.year)
    | none => []) = _
  rw [hmax]
  apply List.filter_congr
  intro d hd
  have : d.date.year ≤ yn := hub _ (List.mem_map.mpr ⟨d, hd, rfl⟩)
  by_cases h9 : yn - 9 ≤ d.date.year <;> simp [h9, this]

/-- Witness for `windowing_correct` at the 2015-only dataset. -/
theorem windowing_correct_witness :
    d3max (sample2015.map (fun d => d.date.year)) = some 2015
    ∧ (initVisualizations sample2015).filteredData
      = sample2015.filter (fun d => 2015 - 9 ≤ d.date.year ∧ d.date.year ≤ 2015) :=
  ⟨by decide, (windowing_correct sample2015 2015 (by decide)).1⟩


theorem monthGroup_map_subset {data : List DailyRecord} {y m : Int}
    (f : DailyRecord → Int) :
    ∀ t ∈ (monthGroup data y m).map f, t ∈ data.map f := by
  intro t ht
  obtain ⟨d, hd, rfl⟩ := List.mem_map.mp ht
  exact List.mem_map.mpr ⟨d, List.mem_of_mem_filter hd, rfl⟩

/-- C4: re-deriving the global extent from the aggregated summaries (min of
the `min` fields, max of the `max` fields) reproduces the extent computed
directly over the raw records. -/
theorem roundtrip_extents (data : List DailyRecord) (hne : data ≠ []) :
    d3minO ((createAggregatedData data).map (fun s => s.min))
      = d3min (data.map (fun d => d.min_temperature))
    ∧ d3maxO ((createAggregatedData data).map (fun s => s.max))
      = d3max (data.map (fun d => d.max_temperature)) := by
  constructor
  · have hmapne : data.map (fun d => d.min_temperature) ≠ [] := by simpa using hne
    obtain ⟨A, hA⟩ : ∃ A, d3min (data.map (fun d => d.min_temperature)) = some A := by
      cases hc : d3min (data.map (fun d => d.min_temperature)) with
      | none => exact absurd (d3min_eq_none_iff.mp hc) hmapne
      | some A => exact ⟨A, rfl⟩
    obtain ⟨hAmem, hAlb⟩ := d3min_eq_some_iff.mp hA
    rw [hA, d3minO, d3min_eq_some_iff]
    constructor
    · -- A is attained as some summary's min field
      obtain ⟨d0, hd0, hd0e⟩ := List.mem_map.mp hAmem
      set y := d0.date.year with hy
      set m := d0.date.month with hm
      have hd0g : d0 ∈ monthGroup data y m :=
        List.mem_filter.mpr ⟨hd0, by simp⟩
      have hgne : monthGroup data y m ≠ [] := fun h => by rw [h] at hd0g; simp at hd0g
      have hs : (⟨y, m, d3max ((monthGroup data y m).map (fun d => d.max_temperature)),
          d3min ((monthGroup data y m).map (fun d => d.min_temperature))⟩ : MonthlySummary)
          ∈ createAggregatedData data :=
        mem_createAggregatedData.mpr ⟨y, m, hgne, rfl⟩
      have hgmapne : (monthGroup data y m).map (fun d => d.min_temperature) ≠ [] := by
        simpa using hgne
      obtain ⟨a, ha⟩ : ∃ a, d3min ((monthGroup data y m).map (fun d => d.min_temperature))
          = some a := by
        cases hc : d3min ((monthGroup data y m).map (fun d => d.min_temperature)) with
        | none => exact absurd (d3min_eq_none_iff.mp hc) hgmapne
        | some a => exact ⟨a, rfl⟩
      obtain ⟨hamem, halb⟩ := d3min_eq_some_iff.mp ha
      have haA : a = A := by
        have h1 : A ≤ a := hAlb a (monthGroup_map_subset _ a hamem)
        have h2 : a ≤ A := by
          apply halb
          exact List.mem_map.mpr ⟨d0, hd0g, hd0e⟩
        exact le_antisymm h2 h1
      apply List.mem_filterMap.mpr
      refine ⟨some A, ?_, rfl⟩
      apply List.mem_map.mpr
      exact ⟨_, hs, by simp [ha, haA]⟩
    · -- A is a lower bound of every summary's min field
      intro v hv
      obtain ⟨o, ho, hoe⟩ := List.mem_filterMap.mp hv
      obtain ⟨s, hs, hse⟩ := List.mem_map.mp ho
      obtain ⟨y, m, hgne, hsdef⟩ := mem_createAggregatedData.mp hs
      have : s.min = some v := by rw [hse]; exact hoe
      rw [hsdef] at this
      simp only at this
      obtain ⟨hvmem, -⟩ := d3min_eq_some_iff.mp this
      exact hAlb v (monthGroup_map_subset _ v hvmem)
  · have hmapne : data.map (fun d => d.max_temperature) ≠ [] := by simpa using hne
    obtain ⟨A, hA⟩ : ∃ A, d3max (data.map (fun d => d.max_temperature)) = some A := by
      cases hc : d3max (data.map (fun d => d.max_temperature)) with
      | none => exact absurd (d3max_eq_none_iff.mp hc) hmapne
      | some A => exact ⟨A, rfl⟩
    obtain ⟨hAmem, hAub⟩ := d3max_eq_some_iff.mp hA
    rw [hA, d3maxO, d3max_eq_some_iff]
    constructor
    · obtain ⟨d0, hd0, hd0e⟩ := List.mem_map.mp hAmem
      set y := d0.date.year with hy
      set m := d0.date.month with hm
      have hd0g : d0 ∈ monthGroup data y m :=
        List.mem_filter.mpr ⟨hd0, by simp⟩
      have hgne : monthGroup data y m ≠ [] := fun h => by rw [h] at hd0g; simp at hd0g
      have hs : (⟨y, m, d3max ((monthGroup data y m).map (fun d => d.max_temperature)),
          d3min ((monthGroup data y m).map (fun d => d.min_temperature))⟩ : MonthlySummary)
          ∈ createAggregatedData data :=
        mem_createAggregatedData.mpr ⟨y, m, hgne, rfl⟩
      have hgmapne : (monthGroup data y m).map (fun d => d.max_temperature) ≠ [] := by
        simpa using hgne
      obtain ⟨a, ha⟩ : ∃ a, d3max ((monthGroup data y m).map (fun d => d.max_temperature))
          = some a := by
        cases hc : d3max ((monthGroup data y m).map (fun d => d.max_temperature)) with
        | none => exact absurd (d3max_eq_none_iff.mp hc) hgmapne
        | some a => exact ⟨a, rfl⟩
      obtain ⟨hamem, haub⟩ := d3max_eq_some_iff.mp ha
      have haA : a = A := by
        have h1 : a ≤ A := hAub a (monthGroup_map_subset _ a hamem)
        have h2 : A ≤ a := by
          apply haub
          exact List.mem_map.mpr ⟨d0, hd0g, hd0e⟩
        exact le_antisymm h1 h2
      apply List.mem_filterMap.mpr
      refine ⟨some A, ?_, rfl⟩
      apply List.mem_map.mpr
      exact ⟨_, hs, by simp [ha, haA]⟩
    · intro v hv
      obtain ⟨o, ho, hoe⟩ := List.mem_filterMap.mp hv
      obtain ⟨s, hs, hse⟩ := List.mem_map.mp ho
      obtain ⟨y, m, hgne, hsdef⟩ := mem_createAggregatedData.mp hs
      have : s.max = some v := by rw [hse]; exact hoe
      rw [hsdef] at this
      simp only at this
      obtain ⟨hvmem, -⟩ := d3max_eq_some_iff.mp this
      exact hAub v (monthGroup_map_subset _ v hvmem)

/-- Witness for `roundtrip_extents` at the scenario rows. -/
theorem roundtrip_extents_witness :
    sampleRecords ≠ []
    ∧ d3minO ((createAggregatedData sampleRecords).map (fun s => s.min))
      = d3min (sampleRecords.map (fun d => d.min_temperature)) :=
  ⟨by simp [sampleRecords], (roundtrip_extents sampleRecords (by simp [sampleRecords])).1⟩


theorem yearlyApply_colorDomain (processedData : List MonthlySummary)
    (st : YearlyHeatmap) (op : YearlyOp) :
    (yearlyApply processedData st op).colorDomain = st.colorDomain := by
  cases op <;> rfl

/-- C5: the first heatmap's cell color-scale domain is fixed at construction
to (min over summaries' `min`, max over summaries' `max`) and no sequence of
`updateMatrix` / `updateLegend` calls changes it, while every
`updateLegend(field)` sets the legend domain to the chosen field's extent
over the summaries — so after toggling to the `min` field on the scenario
data the two domains differ. -/
theorem yearly_domains (processedData : List MonthlySummary) :
    (∀ ops : List YearlyOp,
      (ops.foldl (yearlyApply processedData) (createYearlyHeatmap processedData)).colorDomain
        = (d3minO (processedData.map (fun d => d.min)),
           d3maxO (processedData.map (fun d => d.max))))
    ∧ (∀ (st : YearlyHeatmap) (t : TempType),
        (yearlyUpdateLegend processedData st t).legendDomain = getExtent processedData t)
    ∧ (∀ st : YearlyHeatmap,
        (yearlyUpdateLegend processedData st TempType.max).legendDomain
          = (d3minO (processedData.map (fun d => d.max)),
             d3maxO (processedData.map (fun d => d.max))))
    ∧ (∀ st : YearlyHeatmap,
        (yearlyUpdateLegend processedData st TempType.min).legendDomain
          = (d3minO (processedData.map (fun d => d.min)),
             d3maxO (processedData.map (fun d => d.min))))
    ∧ (yearlyApply (createAggregatedData sampleRecords)
          (createYearlyHeatmap (createAggregatedData sampleRecords))
          (.legend .min)).legendDomain
        ≠ (yearlyApply (createAggregatedData sampleRecords)
          (createYearlyHeatmap (createAggregatedData sampleRecords))
          (.legend .min)).colorDomain := by
  have key : ∀ (ops : List YearlyOp) (st : YearlyHeatmap),
      (ops.foldl (yearlyApply processedData) st).colorDomain = st.colorDomain := by
    intro ops
    induction ops with
    | nil => intro st; rfl
    | cons op ops ih =>
      intro st
      rw [List.foldl_cons, ih, yearlyApply_colorDomain]
  refine ⟨fun ops => key ops _, fun st t => rfl, fun st => rfl, fun st => rfl, ?_⟩
  simp [createAggregatedData, rollupYearMonth, groupPairs, d3max, d3min, sampleRecords,
    yearlyApply, yearlyUpdateLegend, getExtent, createYearlyHeatmap, d3minO, d3maxO]

/-- C6: each `updateMatrix(field)` call on the second heatmap re-domains its
color scale to the chosen field's extent over the windowed records
(whatever the prior state was), and fills each (year, month) cell with the
color of the max of `max_temperature` (field `max`) resp. the min of
`min_temperature` (field `min`) over that cell's days. -/
theorem recent_updateMatrix_correct (processedDailyData : List MonthlyBucket)
    (filteredData : List DailyRecord) (st : RecentHeatmap) :
    ((recentUpdateMatrix processedDailyData filteredData st TempType.max).1.colorDomain
        = (d3min (filteredData.map (fun d => d.max_temperature)),
           d3max (filteredData.map (fun d => d.max_temperature))))
    ∧ ((recentUpdateMatrix processedDailyData filteredData st TempType.min).1.colorDomain
        = (d3min (filteredData.map (fun d => d.min_temperature)),
           d3max (filteredData.map (fun d => d.min_temperature))))
    ∧ ((recentUpdateMatrix processedDailyData filteredData st TempType.max).2.map
          (fun c => (c.year, c.month, c.fill))
        = processedDailyData.map (fun b => (b.year, b.month,
            d3max (b.days.map (fun day => day.max_temperature)))))
    ∧ ((recentUpdateMatrix processedDailyData filteredData st TempType.min).2.map
          (fun c => (c.year, c.month, c.fill))
        = processedDailyData.map (fun b => (b.year, b.month,
            d3min (b.days.map (fun day => day.min_temperature))))) := by
  refine ⟨rfl, rfl, ?_, ?_⟩ <;>
    simp [recentUpdateMatrix, List.map_map, Function.comp]

theorem recentApply_miniExtent (processedDailyData : List MonthlyBucket)
    (filteredData : List DailyRecord) (st : RecentHeatmap) (op : RecentOp) :
    (recentApply processedDailyData filteredData st op).miniExtent = st.miniExtent := by
  cases op <;> rfl

/-- C7: every cell's two mini line paths use a horizontal scale with domain
[1, day count of that cell] and a vertical scale whose domain is the fixed
pair (min `min_temperature`, max `max_temperature`) over the windowed
records, shared by every cell and unchanged by any sequence of field
toggles. -/
theorem mini_line_scales (processedDailyData : List MonthlyBucket)
    (filteredData : List DailyRecord) :
    (∀ ops : List RecentOp,
      (ops.foldl (recentApply processedDailyData filteredData)
          (createRecentYearsHeatmap processedDailyData filteredData).1).miniExtent
        = (d3min (filteredData.map (fun d => d.min_temperature)),
           d3max (filteredData.map (fun d => d.max_temperature))))
    ∧ (∀ (st : RecentHeatmap) (t : TempType),
        (recentUpdateMatrix processedDailyData filteredData st t).2.map
            (fun c => (c.xDomain, c.yDomain))
          = processedDailyData.map (fun b => ((1, (b.days.length : Int)), st.miniExtent)))
    ∧ (∀ (ops : List RecentOp) (t : TempType),
        (recentUpdateMatrix processedDailyData filteredData
            (ops.foldl (recentApply processedDailyData filteredData)
              (createRecentYearsHeatmap processedDailyData filteredData).1) t).2.map
            (fun c => c.yDomain)
          = processedDailyData.map (fun _ =>
              (d3min (filteredData.map (fun d => d.min_temperature)),
               d3max (filteredData.map (fun d => d.max_temperature))))) := by
  have key : ∀ (ops : List RecentOp) (st : RecentHeatmap),
      (ops.foldl (recentApply processedDailyData filteredData) st).miniExtent
        = st.miniExtent := by
    intro ops
    induction ops with
    | nil => intro st; rfl
    | cons op ops ih =>
      intro st
      rw [List.foldl_cons, ih, recentApply_miniExtent]
  have hinit : (createRecentYearsHeatmap processedDailyData filteredData).1.miniExtent
      = (d3min (filteredData.map (fun d => d.min_temperature)),
         d3max (filteredData.map (fun d => d.max_temperature))) := rfl
  refine ⟨fun ops => by rw [key, hinit], ?_, ?_⟩
  · intro st t
    cases t <;> simp [recentUpdateMatrix, List.map_map, Function.comp]
  · intro ops t
    have h2 : ∀ (st : RecentHeatmap) (t : TempType),
        (recentUpdateMatrix processedDailyData filteredData st t).2.map (fun c => c.yDomain)
          = processedDailyData.map (fun _ => st.miniExtent) := by
      intro st t
      cases t <;>
        simp [recentUpdateMatrix, List.map_map, Function.comp_def, List.map_const']
    rw [h2, key, hinit]


/-- C8: for a hover at pixel offset `mx` in a cell of width `bandwidth`
whose bucket has `n` days, the selected index is
⌊(mx / bandwidth) · n⌋; when that index falls outside [0, n − 1] the
tooltip update is suppressed (the handler returns nothing, no error),
and otherwise the tooltip shows exactly that day's date, max and min
temperatures. -/
theorem hover_contract (days : List DailyRecord) (mx bandwidth : ℚ)
    (hbw : 0 < bandwidth) :
    hoverDayIndex days mx bandwidth = Int.floor (mx / bandwidth * (days.length : ℚ))
    ∧ ((hoverDayIndex days mx bandwidth < 0
          ∨ (days.length : Int) ≤ hoverDayIndex days mx bandwidth) →
        hoverTooltip days mx bandwidth = none)
    ∧ (∀ dayData, 0 ≤ hoverDayIndex days mx bandwidth →
        days[(hoverDayIndex days mx bandwidth).toNat]? = some dayData →
        hoverTooltip days mx bandwidth
          = some (dayData.date, dayData.max_temperature, dayData.min_temperature)) := by
  refine ⟨rfl, ?_, ?_⟩
  · intro h
    rcases h with h | h
    · rw [hoverTooltip]
      simp only [if_neg (not_le.mpr h)]
    · have h0 : 0 ≤ hoverDayIndex days mx bandwidth :=
        le_trans (Int.ofNat_nonneg days.length) h
      rw [hoverTooltip]
      simp only [if_pos h0]
      have hlen : days.length ≤ (hoverDayIndex days mx bandwidth).toNat := by
        omega
      rw [List.getElem?_eq_none hlen]
      rfl
  · intro dayData h0 hget
    rw [hoverTooltip]
    simp only [if_pos h0]
    rw [hget]
    rfl

/-- Witness for `hover_contract`: hovering at offset 1/2 of a unit-width
cell over the scenario's (2020, 1) bucket selects its second day. -/
theorem hover_contract_witness :
    (0 : ℚ) < 1
    ∧ hoverTooltip sampleBucket.days (1/2) 1 = some (⟨2020, 1, 20⟩, 15, -1) := by
  have h := hover_contract sampleBucket.days (1/2) 1 (by norm_num)
  have hidx : hoverDayIndex sampleBucket.days (1/2) 1 = 1 := by
    rw [hoverDayIndex]
    norm_num [sampleBucket]
  refine ⟨by norm_num, ?_⟩
  apply h.2.2 ⟨⟨2020, 1, 20⟩, 15, -1⟩ (by rw [hidx]; norm_num) ?_
  rw [hidx]
  rfl

/-- C9: re-running `updateMatrix` with the same field is idempotent on both
heatmaps: the second call computes exactly the same scale state and cell
renders as the first, since the renders are a function of the (unmodified)
aggregated data, the fixed mini extent, and the field. -/
theorem updateMatrix_idempotent (processedData : List MonthlySummary)
    (processedDailyData : List MonthlyBucket) (filteredData : List DailyRecord)
    (st : YearlyHeatmap) (st' : RecentHeatmap) (t : TempType) :
    yearlyUpdateMatrix processedData (yearlyUpdateMatrix processedData st t).1 t
      = yearlyUpdateMatrix processedData st t
    ∧ recentUpdateMatrix processedDailyData filteredData
        (recentUpdateMatrix processedDailyData filteredData st' t).1 t
      = recentUpdateMatrix processedDailyData filteredData st' t := by
  constructor
  · rfl
  · rfl


/-- C10: for every bucket of the windowed recent-years view, the per-cell
aggregates the second heatmap computes (max of `max_temperature`, min of
`min_temperature` over the bucket's days) equal the `max` and `min` fields
of the Monthly Summary that `createAggregatedData` derives for the same
(year, month) from the full record set. -/
theorem views_agree (data : List DailyRecord) (b : MonthlyBucket)
    (hb : b ∈ (initVisualizations data).processedDailyData) :
    ∃ s, (createAggregatedData data).find?
        (fun s => s.year = b.year ∧ s.month = b.month) = some s
      ∧ s.max = d3max (b.days.map (fun day => day.max_temperature))
      ∧ s.min = d3min (b.days.map (fun day => day.min_temperature)) := by
  have hb' : b ∈ createDailyData ((initVisualizations data).filteredData) := hb
  obtain ⟨y, m, hgne, hbe⟩ := mem_createDailyData.mp hb'
  subst hbe
  cases hmax : d3max (data.map (fun d => d.date.year)) with
  | none =>
    have hdata : data = [] := by
      have := d3max_eq_none_iff.mp hmax
      simpa using this
    subst hdata
    simp [initVisualizations, d3max, monthGroup] at hgne
  | some yn =>
    have hfd : (initVisualizations data).filteredData
        = data.filter (fun d => yn - 9 ≤ d.date.year) := by
      show (match d3max (data.map (fun d => d.date.year)) with
        | some maxYear => data.filter (fun (d : DailyRecord) => maxYear - 9 ≤ d.date.year)
        | none => []) = _
      rw [hmax]
    obtain ⟨d0, hd0⟩ := List.exists_mem_of_ne_nil _ hgne
    have hd0f := List.mem_filter.mp hd0
    have hkey : d0.date.year = y ∧ d0.date.month = m := by simpa using hd0f.2
    have hd0w : yn - 9 ≤ d0.date.year := by
      have h1 := hd0f.1
      rw [hfd] at h1
      simpa using (List.mem_filter.mp h1).2
    have hyw : yn - 9 ≤ y := hkey.1 ▸ hd0w
    have hgrp : monthGroup ((initVisualizations data).filteredData) y m
        = monthGroup data y m := by
      rw [hfd, monthGroup, monthGroup, List.filter_filter]
      apply List.filter_congr
      intro d _
      by_cases h1 : d.date.year = y ∧ d.date.month = m
      · simp [h1.1, h1.2]
        omega
      · rw [decide_eq_false h1]
        simp
    have hgne' : monthGroup data y m ≠ [] := hgrp ▸ hgne
    have hs0 : (⟨y, m, d3max ((monthGroup data y m).map (fun d => d.max_temperature)),
        d3min ((monthGroup data y m).map (fun d => d.min_temperature))⟩ : MonthlySummary)
        ∈ createAggregatedData data :=
      mem_createAggregatedData.mpr ⟨y, m, hgne', rfl⟩
    have hfind : ((createAggregatedData data).find?
        (fun s => s.year = (⟨y, m, (monthGroup ((initVisualizations data).filteredData) y m).mergeSort (fun a c => dateLe a.date c.date)⟩ : MonthlyBucket).year
          ∧ s.month = (⟨y, m, (monthGroup ((initVisualizations data).filteredData) y m).mergeSort (fun a c => dateLe a.date c.date)⟩ : MonthlyBucket).month)).isSome := by
      apply List.find?_isSome.mpr
      exact ⟨_, hs0, by simp⟩
    obtain ⟨s, hsfind⟩ := Option.isSome_iff_exists.mp hfind
    have hsp := List.find?_some hsfind
    simp only [decide_eq_true_eq] at hsp
    have hsmem := List.mem_of_find?_eq_some hsfind
    obtain ⟨y', m', hgne'', hsdef⟩ := mem_createAggregatedData.mp hsmem
    have hy' : y' = y := by
      have := hsp.1
      rw [hsdef] at this
      exact this
    have hm' : m' = m := by
      have := hsp.2
      rw [hsdef] at this
      exact this
    rw [hy', hm'] at hsdef
    have hperm : ((monthGroup ((initVisualizations data).filteredData) y m).mergeSort
        (fun a c => dateLe a.date c.date)).Perm (monthGroup data y m) := by
      have h0 := List.mergeSort_perm (monthGroup ((initVisualizations data).filteredData) y m)
        (fun a c => dateLe a.date c.date)
      exact h0.trans (hgrp ▸ List.Perm.refl _)
    refine ⟨s, hsfind, ?_, ?_⟩
    · rw [hsdef]
      exact (d3max_perm (hperm.map (fun day => day.max_temperature))).symm
    · rw [hsdef]
      exact (d3min_perm (hperm.map (fun day => day.min_temperature))).symm

/-- Witness for `views_agree` at the scenario rows and their (2020, 1)
bucket. -/
theorem views_agree_witness :
    sampleBucket ∈ (initVisualizations sampleRecords).processedDailyData
    ∧ ∃ s, (createAggregatedData sampleRecords).find?
        (fun s => s.year = sampleBucket.year ∧ s.month = sampleBucket.month) = some s
      ∧ s.max = d3max (sampleBucket.days.map (fun day => day.max_temperature))
      ∧ s.min = d3min (sampleBucket.days.map (fun day => day.min_temperature)) := by
  have hmem : sampleBucket ∈ (initVisualizations sampleRecords).processedDailyData := by
    simp [initVisualizations, d3max, sampleRecords, createDailyData, rollupYearMonth,
      groupPairs, List.mergeSort, dateLe, sampleBucket]
  exact ⟨hmem, views_agree sampleRecords sampleBucket hmem⟩

end TempViz
